import Mathlib

/-!
# Cloud image manager (`script.js`): embedding and verified properties

The class `CloudImageManager` of `cloud-notepad app/script.js` is embedded as
explicit state passing.

* JavaScript strings are Lean strings.  Every character the program inspects
  (white space, `,`, `/`) lies in the basic multilingual plane, so working on
  Unicode scalar values instead of UTF-16 code units does not change `trim`,
  `split(',')` or `replace(/\/$/, '')`.
* Values that come from `JSON.parse` are terms of `JSVal`.
* The outside world is an `Env`: it answers each `fetch` (as a function of the
  requests issued before and of the request itself) and each `confirm`
  dialogue.  Messages that the JavaScript runtime words itself (the text of a
  `TypeError`, the string conversion of a non-string value) are fields of
  `Env` as well.
* A `World` is the manager object together with the list of requests issued
  so far, oldest first.
* `setTimeout` callbacks are recorded in `timers` and never run: an operation
  is followed up to the point where its promise settles.
-/

namespace CloudNotepad

/-! ## JavaScript values and strings -/

/-- JavaScript values as far as the program meets them. -/
inductive JSVal where
  | undefined
  | null
  | bool (b : Bool)
  | num (n : Int)
  | str (s : String)
  | arr (items : List JSVal)
  | obj (fields : List (String × JSVal))

/-- Property read `v.key` for the keys the program reads (`type`, `sha`,
`content`, `message`): `none` stands for the `TypeError` raised on `null` and
`undefined`; strings, numbers, booleans and arrays have no such property and
give `undefined`; an object gives its own property (`fields` lists each
property once) or `undefined`. -/
def JSVal.getProp (v : JSVal) (key : String) : Option JSVal :=
  match v with
  | .undefined => none
  | .null => none
  | .obj fields => some ((fields.lookup key).getD .undefined)
  | _ => some .undefined

/-- JavaScript truthiness (`ToBoolean`). -/
def JSVal.truthy : JSVal → Bool
  | .undefined => false
  | .null => false
  | .bool b => b
  | .num n => n != 0
  | .str s => s != ""
  | .arr _ => true
  | .obj _ => true

/-- Strict comparison `v === s` with a string literal `s`. -/
def JSVal.strictEqStr (v : JSVal) (s : String) : Bool :=
  match v with
  | .str t => t == s
  | _ => false

/-- White space and line terminators of ECMAScript, the characters that
`String.prototype.trim` removes. -/
def isWhiteSpace (c : Char) : Bool :=
  let n := c.toNat
  n == 9 || n == 10 || n == 11 || n == 12 || n == 13 || n == 32 || n == 160 ||
  n == 5760 || (8192 ≤ n && n ≤ 8202) || n == 8232 || n == 8233 || n == 8239 ||
  n == 8287 || n == 12288 || n == 65279

/-- The method `String.prototype.trim`: white space is dropped at both ends. -/
def trim (s : String) : String :=
  ⟨((s.data.dropWhile isWhiteSpace).reverse.dropWhile isWhiteSpace).reverse⟩

/-- The call `s.replace(/\/$/, '')` on the characters of `s`: the regular
expression is tried at each position from the left; it matches where a `/` is
followed by the end of the input, and the first match is replaced by the empty
string. -/
def replaceSlashAtEnd : List Char → List Char
  | [] => []
  | c :: rest => if c = '/' ∧ rest = [] then [] else c :: replaceSlashAtEnd rest

/-- The call `s.split(sep)` for a one-character separator, on characters: the
list of the pieces between all occurrences of `sep`. -/
def split (sep : Char) : List Char → List (List Char)
  | [] => [[]]
  | c :: cs =>
    if c = sep then [] :: split sep cs
    else
      match split sep cs with
      | [] => [[c]]
      | seg :: segs => (c :: seg) :: segs

/-! ## The manager object and its environment -/

/-- The status banner: `statusMessage.textContent` and `.className`. -/
structure Status where
  textContent : String
  className : String

/-- What a pending `setTimeout` callback will do. -/
inductive TimerAction where
  | clearStatus
  | refreshImageList

/-- The object stored in `this.selectedFile`; `content` is absent when the
file was loaded by `editImage`. -/
structure SelectedFile where
  name : String
  content : Option String
  base64 : JSVal

/-- Content of the `imageList` element: markup assigned to `innerHTML`, or the
rows built by `displayImageList`, one per image, each with its View, Edit and
Delete buttons. -/
inductive ImageListView where
  | html (markup : String)
  | rows (images : List JSVal)

/-- The fields of a `CloudImageManager` that the operations read or write.
The fields ending in `Input` are the `value` of the form element. -/
structure CloudImageManager where
  token : String
  username : String
  repo : String
  folder : String
  tokenInput : String
  userInput : String
  repoInput : String
  folderInput : String
  fileNameInput : String
  imageInput : String
  selectedFile : Option SelectedFile
  imageList : ImageListView
  statusMessage : Status
  timers : List (Nat × TimerAction)

/-- A call of `fetch`: `body` is the object handed to `JSON.stringify`. -/
structure Request where
  url : String
  method : String
  headers : List (String × String)
  body : Option (List (String × JSVal))

/-- Outcome of `response.json()`. -/
inductive JsonResult where
  | rejects (message : String)
  | value (v : JSVal)

/-- A response as the program reads it. -/
structure Response where
  status : Nat
  json : JsonResult

/-- The flag `response.ok`: the status is in the range 200 to 299. -/
def Response.ok (r : Response) : Bool :=
  decide (200 ≤ r.status) && decide (r.status ≤ 299)

/-- Outcome of awaiting a `fetch`. -/
inductive FetchOutcome where
  | networkError (message : String)
  | response (r : Response)

/-- The world outside the manager. -/
structure Env where
  fetch : List Request → Request → FetchOutcome
  confirm : String → Bool
  typeErrorMessage : String → String
  toStr : JSVal → String

/-- The manager together with the requests issued so far, oldest first. -/
structure World where
  mgr : CloudImageManager
  sent : List Request

/-- A file chosen in the file picker. -/
structure LocalFile where
  name : String

/-! ## The methods -/

/-- The method `showStatus(message, type)`. -/
def showStatus (m : CloudImageManager) (message : String) (type : String) :
    CloudImageManager :=
  { m with
    statusMessage := { textContent := message, className := "status-message " ++ type }
    timers := m.timers ++ [(5000, TimerAction.clearStatus)] }

/-- The expression `e.target.result.split(',')[1] || e.target.result`. -/
def base64Payload (result : String) : String :=
  match (split ',' result.data)[1]? with
  | some seg => if seg = [] then result else ⟨seg⟩
  | none => result

/-- The synchronous part of `handleImageFileSelect(event)`; `file` is
`event.target.files[0]`. -/
def handleImageFileSelect (m : CloudImageManager) (file : Option LocalFile) :
    CloudImageManager :=
  match file with
  | none => m
  | some file => { m with fileNameInput := file.name }

/-- The `reader.onload` callback of `handleImageFileSelect`; `result` is
`e.target.result`, the data URL produced by `readAsDataURL`. -/
def readerOnload (m : CloudImageManager) (file : LocalFile) (result : String) :
    CloudImageManager :=
  showStatus
    { m with
      selectedFile :=
        some { name := file.name, content := some result,
               base64 := .str (base64Payload result) } }
    ("✓ File selected: " ++ file.name) "success"

/-- The four assignments that open `validateCredentials()`. -/
def cacheCredentials (m : CloudImageManager) : CloudImageManager :=
  { m with
    token := trim m.tokenInput
    username := trim m.userInput
    repo := trim m.repoInput
    folder := ⟨replaceSlashAtEnd (trim m.folderInput).data⟩ }

/-- The method `validateCredentials()`: the new state and the returned flag. -/
def validateCredentials (m : CloudImageManager) : CloudImageManager × Bool :=
  let m1 := cacheCredentials m
  if m1.token = "" ∨ m1.username = "" ∨ m1.repo = "" then
    (showStatus m1 "❌ Please fill in GitHub token, username, and repository name" "error",
      false)
  else (m1, true)

/-- The contents URL built in `refreshImageList`, `editImage`, `deleteImage`
and `addImage`. -/
def contentsUrl (m : CloudImageManager) (path : String) : String :=
  "https://api.github.com/repos/" ++ m.username ++ "/" ++ m.repo ++ "/contents/" ++ path

/-- The authenticated GET issued by `fetch(url, { headers })`. -/
def getRequest (m : CloudImageManager) (url : String) : Request :=
  { url := url
    method := "GET"
    headers := [("Authorization", "Bearer " ++ m.token),
                ("Accept", "application/vnd.github.v3+json")]
    body := none }

/-- The call `data.filter(item => item.type === 'file')`; reading `type` of
`null` or `undefined` raises a `TypeError`. -/
def filterFiles (env : Env) : List JSVal → Except String (List JSVal)
  | [] => .ok []
  | item :: rest =>
    match item.getProp "type" with
    | none => .error (env.typeErrorMessage "type")
    | some t =>
      match filterFiles env rest with
      | .error e => .error e
      | .ok keep => if t.strictEqStr "file" then .ok (item :: keep) else .ok keep

/-- The predicate `item => item.type === 'file'` on an item whose `type` can
be read. -/
def isFileEntry (item : JSVal) : Bool :=
  match item.getProp "type" with
  | some t => t.strictEqStr "file"
  | none => false

/-- The method `displayImageList(images)`. -/
def displayImageList (m : CloudImageManager) (images : List JSVal) : CloudImageManager :=
  { m with imageList := .rows images }

/-- The request that `refreshImageList` issues from a validated manager. -/
def listingRequest (m : CloudImageManager) : Request :=
  getRequest m (contentsUrl m (if m.folder ≠ "" then m.folder else ""))

/-- The `try` block of `refreshImageList` after the `fetch`: the state it
ends in, or the message of the error it throws. -/
def refreshImageListTry (env : Env) (m : CloudImageManager) (answer : FetchOutcome) :
    Except String CloudImageManager :=
  match answer with
  | .networkError msg => .error msg
  | .response response =>
    if !response.ok then
      if response.status = 404 then
        .error "Repository or folder not found. Check your credentials and folder path."
      else .error ("GitHub API error: " ++ toString response.status)
    else
      match response.json with
      | .rejects msg => .error msg
      | .value (.arr data) =>
        match filterFiles env data with
        | .error msg => .error msg
        | .ok images =>
          if images.length = 0 then
            .ok (showStatus
              { m with
                imageList := .html "<p class=\"placeholder\">No images found in this folder</p>" }
              "✓ No images found. Add one to get started!" "success")
          else
            .ok (showStatus (displayImageList m images)
              ("✓ Successfully loaded " ++ toString images.length ++ " image(s)") "success")
      | .value _ => .error "Invalid response format from GitHub API"

/-- The method `refreshImageList()`. -/
def refreshImageList (env : Env) (w : World) : World :=
  match validateCredentials w.mgr with
  | (m, false) => { w with mgr := m }
  | (m, true) =>
    let m1 := showStatus m "⏳ Loading images..." "info"
    let m2 : CloudImageManager :=
      { m1 with imageList := .html "<p class=\"loading\">Loading...</p>" }
    let req := listingRequest m2
    match refreshImageListTry env m2 (env.fetch w.sent req) with
    | .ok m3 => { mgr := m3, sent := w.sent ++ [req] }
    | .error msg =>
      { mgr := showStatus
          { m2 with imageList := .html ("<p class=\"error\">Error: " ++ msg ++ "</p>") }
          ("❌ " ++ msg) "error"
        sent := w.sent ++ [req] }

/-- The `try` block of `editImage` after the `fetch`. -/
def editImageTry (env : Env) (m : CloudImageManager) (fileName : String)
    (answer : FetchOutcome) : Except String CloudImageManager :=
  match answer with
  | .networkError msg => .error msg
  | .response response =>
    if !response.ok then .error "Failed to fetch file"
    else
      match response.json with
      | .rejects msg => .error msg
      | .value data =>
        match data.getProp "content" with
        | none => .error (env.typeErrorMessage "content")
        | some base64Content =>
          .ok (showStatus
            { m with
              fileNameInput := fileName
              selectedFile :=
                some { name := fileName, content := none, base64 := base64Content } }
            ("✓ File loaded for editing: " ++ fileName) "success")

/-- The method `editImage(fileName, filePath)`. -/
def editImage (env : Env) (w : World) (fileName filePath : String) : World :=
  let m := showStatus w.mgr "⏳ Loading image for editing..." "info"
  let req := getRequest m (contentsUrl m filePath)
  match editImageTry env m fileName (env.fetch w.sent req) with
  | .ok m1 => { mgr := m1, sent := w.sent ++ [req] }
  | .error msg =>
    { mgr := showStatus m ("❌ Error loading file for edit: " ++ msg) "error"
      sent := w.sent ++ [req] }

/-- The DELETE issued by `deleteImage`. -/
def deleteRequest (m : CloudImageManager) (url fileName : String) (sha : JSVal) : Request :=
  { url := url
    method := "DELETE"
    headers := [("Authorization", "Bearer " ++ m.token),
                ("Content-Type", "application/json")]
    body := some [("message", .str ("Delete " ++ fileName)), ("sha", sha)] }

/-- The `catch` block of `deleteImage`. -/
def deleteImageCatch (m : CloudImageManager) (sent : List Request) (msg : String) : World :=
  { mgr := showStatus m ("❌ Error deleting image: " ++ msg) "error", sent := sent }

/-- The question put to the user by `deleteImage`. -/
def deleteQuestion (fileName : String) : String :=
  "Are you sure you want to delete \"" ++ fileName ++ "\"?"

/-- The rest of the `try` block of `deleteImage` once the DELETE is answered;
`sent` holds the GET and the DELETE. -/
def deleteImageAfterDelete (env : Env) (m : CloudImageManager) (sent : List Request)
    (fileName : String) (answer : FetchOutcome) : World :=
  match answer with
  | .networkError msg => deleteImageCatch m sent msg
  | .response deleteResponse =>
    if !deleteResponse.ok then
      deleteImageCatch m sent "GitHub API rejected the delete request"
    else
      refreshImageList env
        { mgr := showStatus m ("✓ Image deleted: " ++ fileName) "success", sent := sent }

/-- The rest of the `try` block of `deleteImage` once the GET is answered;
`sent` holds the GET. -/
def deleteImageAfterGet (env : Env) (m : CloudImageManager) (sent : List Request)
    (url fileName : String) (answer : FetchOutcome) : World :=
  match answer with
  | .networkError msg => deleteImageCatch m sent msg
  | .response getResponse =>
    if !getResponse.ok then deleteImageCatch m sent "Failed to fetch file for deletion"
    else
      match getResponse.json with
      | .rejects msg => deleteImageCatch m sent msg
      | .value fileData =>
        match fileData.getProp "sha" with
        | none => deleteImageCatch m sent (env.typeErrorMessage "sha")
        | some sha =>
          deleteImageAfterDelete env m (sent ++ [deleteRequest m url fileName sha]) fileName
            (env.fetch sent (deleteRequest m url fileName sha))

/-- The method `deleteImage(fileName, filePath)`. -/
def deleteImage (env : Env) (w : World) (fileName filePath : String) : World :=
  match validateCredentials w.mgr with
  | (m, false) => { w with mgr := m }
  | (m, true) =>
    if !env.confirm (deleteQuestion fileName) then { w with mgr := m }
    else
      let m1 := showStatus m "⏳ Deleting image..." "info"
      let url := contentsUrl m1 filePath
      let getReq := getRequest m1 url
      deleteImageAfterGet env m1 (w.sent ++ [getReq]) url fileName (env.fetch w.sent getReq)

/-- The inner `try` of `addImage`: the value of `sha` after the probe.  It
starts as `null`; every exception of the probe is swallowed. -/
def probeSha (answer : FetchOutcome) : JSVal :=
  match answer with
  | .networkError _ => .null
  | .response getResponse =>
    if getResponse.ok then
      match getResponse.json with
      | .rejects _ => .null
      | .value fileData =>
        match fileData.getProp "sha" with
        | none => .null
        | some sha => sha
    else .null

/-- The object `body` of `addImage`. -/
def putBody (sha : JSVal) (fileName : String) (encodedContent : JSVal) :
    List (String × JSVal) :=
  [("message", .str ((if sha.truthy then "Update" else "Add") ++ " " ++ fileName)),
   ("content", encodedContent)] ++ (if sha.truthy then [("sha", sha)] else [])

/-- The PUT issued by `addImage`. -/
def putRequest (m : CloudImageManager) (url : String) (body : List (String × JSVal)) :
    Request :=
  { url := url
    method := "PUT"
    headers := [("Authorization", "Bearer " ++ m.token),
                ("Content-Type", "application/json")]
    body := some body }

/-- The message of `new Error(x)` for a truthy `x`. -/
def errorText (env : Env) (x : JSVal) : String :=
  match x with
  | .str s => s
  | v => env.toStr v

/-- The outer `catch` block of `addImage`. -/
def addImageCatch (m : CloudImageManager) (sent : List Request) (msg : String) : World :=
  { mgr := showStatus m ("❌ Error uploading image: " ++ msg) "error", sent := sent }

/-- The target path computed by `addImage`. -/
def uploadPath (m : CloudImageManager) (fileName : String) : String :=
  if m.folder ≠ "" then m.folder ++ "/" ++ fileName else fileName

/-- The GET by which `addImage` looks for an existing file. -/
def probeRequest (m : CloudImageManager) (fileName : String) : Request :=
  getRequest m (contentsUrl m (uploadPath m fileName))

/-- The rest of the outer `try` block of `addImage` once the PUT is answered. -/
def addImageAfterPut (env : Env) (m : CloudImageManager) (sent : List Request)
    (fileName : String) (sha : JSVal) (answer : FetchOutcome) : World :=
  match answer with
  | .networkError msg => addImageCatch m sent msg
  | .response response =>
    if !response.ok then
      match response.json with
      | .rejects msg => addImageCatch m sent msg
      | .value error =>
        match error.getProp "message" with
        | none => addImageCatch m sent (env.typeErrorMessage "message")
        | some message =>
          if message.truthy then addImageCatch m sent (errorText env message)
          else addImageCatch m sent ("GitHub API error: " ++ toString response.status)
    else
      let m1 := showStatus m
        ("✓ Image " ++ (if sha.truthy then "updated" else "saved") ++ " successfully: "
          ++ fileName) "success"
      { mgr :=
          { m1 with
            fileNameInput := ""
            imageInput := ""
            selectedFile := none
            timers := m1.timers ++ [(500, TimerAction.refreshImageList)] }
        sent := sent }

/-- The outer `try` block of `addImage`, entered with a validated manager, the
trimmed file name and the selected file. -/
def addImageTry (env : Env) (m : CloudImageManager) (sent : List Request)
    (fileName : String) (selectedFile : SelectedFile) : World :=
  let filePath := uploadPath m fileName
  let encodedContent := selectedFile.base64
  let url := contentsUrl m filePath
  let probe := probeRequest m fileName
  let sha := probeSha (env.fetch sent probe)
  let put := putRequest m url (putBody sha fileName encodedContent)
  addImageAfterPut env m (sent ++ [probe, put]) fileName sha (env.fetch (sent ++ [probe]) put)

/-- The method `addImage()`.  The test `!fileName || !this.selectedFile` is
the pair of branches that show the same message. -/
def addImage (env : Env) (w : World) : World :=
  match validateCredentials w.mgr with
  | (m, false) => { w with mgr := m }
  | (m, true) =>
    let fileName := trim m.fileNameInput
    match m.selectedFile with
    | none =>
      { w with mgr := showStatus m "❌ Please select an image file and enter a filename" "error" }
    | some selectedFile =>
      if fileName = "" then
        { w with
          mgr := showStatus m "❌ Please select an image file and enter a filename" "error" }
      else
        addImageTry env (showStatus m "⏳ Uploading image..." "info") w.sent fileName selectedFile

/-! ## Concrete data for the examples -/

/-- A manager whose form is filled in and whose folder text ends in a slash. -/
def filledForm : CloudImageManager :=
  { token := ""
    username := ""
    repo := ""
    folder := ""
    tokenInput := " ghp_token "
    userInput := "octocat"
    repoInput := "notes"
    folderInput := "img/"
    fileNameInput := ""
    imageInput := ""
    selectedFile := none
    imageList := .html ""
    statusMessage := { textContent := "", className := "status-message" }
    timers := [] }

/-- An environment that answers the n-th request with the n-th outcome of a
script, confirms or declines every dialogue, and has fixed runtime messages. -/
def scripted (answers : List FetchOutcome) (confirmed : Bool) : Env :=
  { fetch := fun sent _ => (answers[sent.length]?).getD (.networkError "Failed to fetch")
    confirm := fun _ => confirmed
    typeErrorMessage := fun key => "Cannot read properties of null (reading " ++ key ++ ")"
    toStr := fun _ => "[object Object]" }

/-- A directory entry of kind file. -/
def catEntry : JSVal :=
  .obj [("name", .str "cat.png"), ("path", .str "img/cat.png"), ("type", .str "file"),
        ("sha", .str "abc123")]

/-- A directory entry of kind dir. -/
def subEntry : JSVal :=
  .obj [("name", .str "old"), ("path", .str "img/old"), ("type", .str "dir")]

/-- A successful response with the given parsed body. -/
def okJson (v : JSVal) : FetchOutcome :=
  .response { status := 200, json := .value v }

/-- A response with the given status and an error object as body. -/
def failed (status : Nat) : FetchOutcome :=
  .response { status := status, json := .value (.obj [("message", .str "Not Found")]) }

/-- A response with the given status whose body is not JSON, so that
`response.json()` rejects. -/
def unparsed (status : Nat) : FetchOutcome :=
  .response { status := status, json := .rejects "Unexpected end of JSON input" }

/-- A filled form with a file chosen and named. -/
def uploadForm : CloudImageManager :=
  { filledForm with
    fileNameInput := " cat.png "
    selectedFile := some { name := "cat.png", content := none, base64 := .str "AAAA" } }

/-- The world after Refresh was clicked on the filled form and answered with
a directory holding one file: the list shows that file with its buttons. -/
def listedWorld : World :=
  refreshImageList (scripted [okJson (.arr [catEntry]), okJson catEntry] true)
    { mgr := filledForm, sent := [] }

/-- The user then empties the token field and clicks Refresh again. -/
def tokenCleared : World :=
  refreshImageList (scripted [okJson (.arr [catEntry]), okJson catEntry] true)
    { listedWorld with mgr := { listedWorld.mgr with tokenInput := "" } }

/-! ## Strings: auxiliary facts -/

theorem string_ne_empty_iff (s : String) : s ≠ "" ↔ s.data ≠ [] := by
  constructor
  · intro h hd
    apply h
    cases s
    simp_all
  · intro h hs
    apply h
    rw [hs]

theorem dropWhile_eq_nil_iff_all (p : Char → Bool) (l : List Char) :
    l.dropWhile p = [] ↔ ∀ c ∈ l, p c = true := by
  induction l with
  | nil => simp
  | cons a t ih =>
    by_cases h : p a = true
    · simp [List.dropWhile_cons, h, ih]
    · simp [List.dropWhile_cons, h]

theorem dropWhile_reverse_ne_nil (p : Char → Bool) (l : List Char) (h : l.dropWhile p ≠ []) :
    (l.dropWhile p).reverse.dropWhile p ≠ [] := by
  intro hnil
  rw [dropWhile_eq_nil_iff_all] at hnil
  cases hl : l.dropWhile p with
  | nil => exact h hl
  | cons a t =>
    have ha : p a = true := hnil a (by simp [hl])
    have hhead := List.head_dropWhile_not p l (by rw [hl]; simp)
    simp [hl, ha] at hhead

/-- A string is non-empty after trimming exactly when it holds a character
that is not white space. -/
theorem trim_ne_empty_iff (s : String) :
    trim s ≠ "" ↔ ∃ c ∈ s.data, isWhiteSpace c = false := by
  rw [string_ne_empty_iff]
  show ((s.data.dropWhile isWhiteSpace).reverse.dropWhile isWhiteSpace).reverse ≠ [] ↔ _
  constructor
  · intro h
    by_contra hall
    push_neg at hall
    have : s.data.dropWhile isWhiteSpace = [] := by
      rw [dropWhile_eq_nil_iff_all]
      intro c hc
      simpa using hall c hc
    simp [this] at h
  · rintro ⟨c, hc, hws⟩
    have h1 : s.data.dropWhile isWhiteSpace ≠ [] := by
      intro hnil
      rw [dropWhile_eq_nil_iff_all] at hnil
      simp [hnil c hc] at hws
    have h2 := dropWhile_reverse_ne_nil isWhiteSpace s.data h1
    simpa using h2

theorem replaceSlashAtEnd_eq (l : List Char) :
    replaceSlashAtEnd l = if l.getLast? = some '/' then l.dropLast else l := by
  induction l with
  | nil => simp [replaceSlashAtEnd]
  | cons a t ih =>
    cases t with
    | nil =>
      by_cases h : a = '/'
      · simp [replaceSlashAtEnd, h]
      · simp [replaceSlashAtEnd, h]
    | cons b u =>
      rw [replaceSlashAtEnd, ih]
      simp only [List.getLast?_cons_cons, List.dropLast_cons₂, reduceCtorEq, and_false, if_false]
      split <;> rfl

theorem split_of_not_mem (sep : Char) (l : List Char) (h : sep ∉ l) : split sep l = [l] := by
  induction l with
  | nil => rfl
  | cons a t ih =>
    have ha : a ≠ sep := fun e => h (by simp [e])
    have ht : sep ∉ t := fun e => h (by simp [e])
    simp [split, ha, ih ht]

theorem split_append_sep (sep : Char) (pre post : List Char) (h : sep ∉ pre) :
    split sep (pre ++ sep :: post) = pre :: split sep post := by
  induction pre with
  | nil => simp [split]
  | cons a t ih =>
    have ha : a ≠ sep := fun e => h (by simp [e])
    have ht : sep ∉ t := fun e => h (by simp [e])
    simp [split, ha, ih ht]

/-- Without a comma the payload is the string itself. -/
theorem base64Payload_no_comma (s : String) (h : ',' ∉ s.data) : base64Payload s = s := by
  simp [base64Payload, split_of_not_mem ',' s.data h]

/-- With exactly one comma and something after it, the payload is what follows
the comma. -/
theorem base64Payload_one_comma (pre post : List Char) (hpre : ',' ∉ pre)
    (hpost : ',' ∉ post) (hne : post ≠ []) :
    base64Payload ⟨pre ++ ',' :: post⟩ = ⟨post⟩ := by
  simp [base64Payload, split_append_sep ',' pre post hpre, split_of_not_mem ',' post hpost, hne]

theorem validateCredentials_folder_eq (m : CloudImageManager) :
    (validateCredentials m).1.folder = ⟨replaceSlashAtEnd (trim m.folderInput).data⟩ := by
  unfold validateCredentials
  dsimp only
  split <;> rfl

theorem validateCredentials_snd (m : CloudImageManager) :
    (validateCredentials m).2 =
      decide (¬ (trim m.tokenInput = "" ∨ trim m.userInput = "" ∨ trim m.repoInput = "")) := by
  unfold validateCredentials cacheCredentials
  dsimp only
  split <;> simp_all

theorem validateCredentials_of_true (m : CloudImageManager)
    (h : (validateCredentials m).2 = true) :
    validateCredentials m = (cacheCredentials m, true) := by
  unfold validateCredentials at h ⊢
  dsimp only at h ⊢
  split
  · rename_i hc
    simp [hc] at h
  · rfl

theorem validateCredentials_of_false (m : CloudImageManager)
    (h : (validateCredentials m).2 = false) :
    validateCredentials m =
      (showStatus (cacheCredentials m)
        "❌ Please fill in GitHub token, username, and repository name" "error", false) := by
  unfold validateCredentials at h ⊢
  dsimp only at h ⊢
  split
  · rfl
  · rename_i hc
    simp [hc] at h

/-! ## Credential validation -/

/-- C1: for every token, owner, repository and folder text in the form,
`validateCredentials` returns true exactly when token, owner and repository
name are each non-empty after trimming, and replacing the folder text by any
other never changes the returned flag. -/
theorem validateCredentials_true_iff (m : CloudImageManager)
    (token owner repo folder : String) :
    ((validateCredentials
        { m with tokenInput := token, userInput := owner, repoInput := repo,
                 folderInput := folder }).2 = true ↔
      trim token ≠ "" ∧ trim owner ≠ "" ∧ trim repo ≠ "") ∧
    ∀ other : String,
      (validateCredentials
        { m with tokenInput := token, userInput := owner, repoInput := repo,
                 folderInput := other }).2 =
      (validateCredentials
        { m with tokenInput := token, userInput := owner, repoInput := repo,
                 folderInput := folder }).2 := by
  refine ⟨?_, ?_⟩
  · rw [validateCredentials_snd]
    simp only [decide_eq_true_eq, not_or]
  · intro other
    rw [validateCredentials_snd, validateCredentials_snd]

/-- C2: the folder cached by `validateCredentials` is the trimmed folder text
without its last character when that text ends with a slash, and the trimmed
text itself otherwise; the texts img/, img// and img give img, img/ and img. -/
theorem validateCredentials_folder (m : CloudImageManager) (folder : String) :
    (validateCredentials { m with folderInput := folder }).1.folder =
      (if (trim folder).data.getLast? = some '/' then ⟨(trim folder).data.dropLast⟩
       else trim folder) ∧
    (validateCredentials { m with folderInput := "img/" }).1.folder = "img" ∧
    (validateCredentials { m with folderInput := "img//" }).1.folder = "img/" ∧
    (validateCredentials { m with folderInput := "img" }).1.folder = "img" := by
  refine ⟨?_, ?_, ?_, ?_⟩
  · rw [validateCredentials_folder_eq, replaceSlashAtEnd_eq]
    split <;> rfl
  · rw [validateCredentials_folder_eq]
    exact (by decide : (⟨replaceSlashAtEnd (trim "img/").data⟩ : String) = "img")
  · rw [validateCredentials_folder_eq]
    exact (by decide : (⟨replaceSlashAtEnd (trim "img//").data⟩ : String) = "img/")
  · rw [validateCredentials_folder_eq]
    exact (by decide : (⟨replaceSlashAtEnd (trim "img").data⟩ : String) = "img")

/-! ## Local file selection -/

/-- C3: for the data URL of an empty PNG file the stored payload is the whole
data URL, not the (empty) text after the comma; with two commas only the piece
between them is stored. -/
theorem readerOnload_payload_defect (m : CloudImageManager) (file : LocalFile) :
    (readerOnload m file "data:image/png;base64,").selectedFile =
      some { name := file.name, content := some "data:image/png;base64,",
             base64 := .str "data:image/png;base64," } ∧
    base64Payload "data:image/png;base64,AAAA" = "AAAA" ∧
    base64Payload "AAAA" = "AAAA" ∧
    base64Payload "a,b,c" = "b" := by
  refine ⟨?_, by decide, by decide, by decide⟩
  have h : base64Payload "data:image/png;base64," = "data:image/png;base64," := by decide
  simp [readerOnload, showStatus, h]

/-! ## Listing -/

theorem getProp_type_of_ne (x : JSVal) (h : x ≠ .null ∧ x ≠ .undefined) :
    ∃ t, x.getProp "type" = some t := by
  cases x with
  | undefined => exact absurd rfl h.2
  | null => exact absurd rfl h.1
  | bool b => exact ⟨_, rfl⟩
  | num n => exact ⟨_, rfl⟩
  | str s => exact ⟨_, rfl⟩
  | arr items => exact ⟨_, rfl⟩
  | obj fields => exact ⟨_, rfl⟩

theorem filterFiles_eq_filter (env : Env) (data : List JSVal)
    (h : ∀ x ∈ data, x ≠ .null ∧ x ≠ .undefined) :
    filterFiles env data = .ok (data.filter isFileEntry) := by
  induction data with
  | nil => rfl
  | cons a t ih =>
    obtain ⟨ty, hty⟩ := getProp_type_of_ne a (h a (by simp))
    have ht := ih (fun x hx => h x (by simp [hx]))
    simp only [filterFiles, hty, ht, List.filter_cons, isFileEntry]
    split <;> rfl

theorem listingRequest_loading (m : CloudImageManager) (text type markup : String) :
    listingRequest { showStatus m text type with imageList := .html markup } =
      listingRequest m := rfl

theorem refreshImageList_of_valid (env : Env) (w : World)
    (h : (validateCredentials w.mgr).2 = true) :
    refreshImageList env w =
      match refreshImageListTry env
          { showStatus (cacheCredentials w.mgr) "⏳ Loading images..." "info" with
            imageList := .html "<p class=\"loading\">Loading...</p>" }
          (env.fetch w.sent (listingRequest (cacheCredentials w.mgr))) with
      | .ok m3 => { mgr := m3, sent := w.sent ++ [listingRequest (cacheCredentials w.mgr)] }
      | .error msg =>
        { mgr := showStatus
            { showStatus (cacheCredentials w.mgr) "⏳ Loading images..." "info" with
              imageList := .html ("<p class=\"error\">Error: " ++ msg ++ "</p>") }
            ("❌ " ++ msg) "error"
          sent := w.sent ++ [listingRequest (cacheCredentials w.mgr)] } := by
  unfold refreshImageList
  rw [validateCredentials_of_true w.mgr h]
  rfl

theorem refreshImageList_of_invalid (env : Env) (w : World)
    (h : (validateCredentials w.mgr).2 = false) :
    refreshImageList env w =
      { w with
        mgr := showStatus (cacheCredentials w.mgr)
          "❌ Please fill in GitHub token, username, and repository name" "error" } := by
  unfold refreshImageList
  rw [validateCredentials_of_false w.mgr h]

/-- C5: when the listing request is answered by a 2xx response whose body is
an array of entries (none of them null or undefined), the rows displayed are
exactly the entries of kind file in their original order; their number is the
number of file entries, the other entries making up the rest of the array; and
when there is no file entry the list shows the no-images placeholder with a
success status, not an error. -/
theorem refreshImageList_shows_files (env : Env) (w : World) (r : Response)
    (data : List JSVal)
    (hvalid : (validateCredentials w.mgr).2 = true)
    (hans : env.fetch w.sent (listingRequest (validateCredentials w.mgr).1) = .response r)
    (hok : r.ok = true)
    (hjson : r.json = .value (.arr data))
    (hentries : ∀ x ∈ data, x ≠ .null ∧ x ≠ .undefined) :
    (data.filter isFileEntry).length = data.countP isFileEntry ∧
    (data.filter isFileEntry).length + data.countP (fun x => !isFileEntry x) = data.length ∧
    (data.filter isFileEntry ≠ [] →
      (refreshImageList env w).mgr.imageList = .rows (data.filter isFileEntry) ∧
      (refreshImageList env w).mgr.statusMessage =
        { textContent :=
            "✓ Successfully loaded " ++ toString (data.filter isFileEntry).length ++ " image(s)"
          className := "status-message success" }) ∧
    (data.filter isFileEntry = [] →
      (refreshImageList env w).mgr.imageList =
        .html "<p class=\"placeholder\">No images found in this folder</p>" ∧
      (refreshImageList env w).mgr.statusMessage =
        { textContent := "✓ No images found. Add one to get started!"
          className := "status-message success" }) := by
  rw [validateCredentials_of_true w.mgr hvalid] at hans
  have hrun := refreshImageList_of_valid env w hvalid
  rw [hans] at hrun
  simp only [refreshImageListTry, hok, hjson, filterFiles_eq_filter env data hentries,
    Bool.not_true, Bool.false_eq_true, if_false] at hrun
  refine ⟨?_, ?_, ?_, ?_⟩
  · exact (List.countP_eq_length_filter _ _).symm
  · have h := List.length_eq_countP_add_countP isFileEntry data
    have h2 : List.countP (fun a => decide ¬isFileEntry a = true) data =
        List.countP (fun x => !isFileEntry x) data := by
      congr 1
      funext a
      cases isFileEntry a <;> rfl
    rw [← List.countP_eq_length_filter]
    omega
  · intro hne
    have hlen : (data.filter isFileEntry).length ≠ 0 := by
      simpa [List.length_eq_zero] using hne
    rw [hrun]
    simp only [hlen, if_false]
    exact ⟨rfl, rfl⟩
  · intro hnil
    rw [hrun]
    simp only [hnil, List.length_nil, if_true]
    exact ⟨rfl, rfl⟩

/-- C6: the answer to the listing request decides the outcome: status 404
gives the not-found error, any other status outside 200 to 299 gives the API
error that names the status, a 2xx status with a parsed body that is not an
array gives the format error, and a success status is shown only if the status
is 2xx and the body is an array. -/
theorem refreshImageList_failures (env : Env) (w : World) (r : Response)
    (hvalid : (validateCredentials w.mgr).2 = true)
    (hans : env.fetch w.sent (listingRequest (validateCredentials w.mgr).1) = .response r) :
    (r.status = 404 →
      (refreshImageList env w).mgr.imageList =
        .html ("<p class=\"error\">Error: " ++
          "Repository or folder not found. Check your credentials and folder path." ++ "</p>") ∧
      (refreshImageList env w).mgr.statusMessage =
        { textContent :=
            "❌ " ++ "Repository or folder not found. Check your credentials and folder path."
          className := "status-message error" }) ∧
    (r.ok = false → r.status ≠ 404 →
      (refreshImageList env w).mgr.imageList =
        .html ("<p class=\"error\">Error: " ++
          ("GitHub API error: " ++ toString r.status) ++ "</p>") ∧
      (refreshImageList env w).mgr.statusMessage =
        { textContent := "❌ " ++ ("GitHub API error: " ++ toString r.status)
          className := "status-message error" }) ∧
    (r.ok = true → ∀ v, r.json = .value v → (∀ items, v ≠ .arr items) →
      (refreshImageList env w).mgr.imageList =
        .html ("<p class=\"error\">Error: " ++ "Invalid response format from GitHub API" ++
          "</p>") ∧
      (refreshImageList env w).mgr.statusMessage =
        { textContent := "❌ " ++ "Invalid response format from GitHub API"
          className := "status-message error" }) ∧
    ((refreshImageList env w).mgr.statusMessage.className = "status-message success" →
      r.ok = true ∧ ∃ items, r.json = .value (.arr items)) := by
  rw [validateCredentials_of_true w.mgr hvalid] at hans
  have hrun := refreshImageList_of_valid env w hvalid
  rw [hans] at hrun
  refine ⟨?_, ?_, ?_, ?_⟩
  · intro h404
    have hnok : r.ok = false := by simp [Response.ok, h404]
    rw [hrun]
    simp only [refreshImageListTry, hnok, h404, Bool.not_false, if_true]
    exact ⟨rfl, rfl⟩
  · intro hnok hne
    rw [hrun]
    simp only [refreshImageListTry, hnok, hne, Bool.not_false, if_true, if_false]
    exact ⟨rfl, rfl⟩
  · intro hok v hv hnot
    rw [hrun]
    simp only [refreshImageListTry, hok, hv, Bool.not_true, Bool.false_eq_true, if_false]
    cases v with
    | arr items => exact absurd rfl (hnot items)
    | undefined => exact ⟨rfl, rfl⟩
    | null => exact ⟨rfl, rfl⟩
    | bool b => exact ⟨rfl, rfl⟩
    | num n => exact ⟨rfl, rfl⟩
    | str s => exact ⟨rfl, rfl⟩
    | obj fields => exact ⟨rfl, rfl⟩
  · intro hsucc
    rw [hrun] at hsucc
    have herr : ("status-message " ++ "error" : String) ≠ "status-message success" := by decide
    cases hok : r.ok with
    | false =>
      exfalso
      simp only [refreshImageListTry, hok, Bool.not_false, if_true] at hsucc
      by_cases h404 : r.status = 404
      · simp only [h404, if_true] at hsucc
        exact herr hsucc
      · simp only [h404, if_false] at hsucc
        exact herr hsucc
    | true =>
      refine ⟨rfl, ?_⟩
      simp only [refreshImageListTry, hok, Bool.not_true, Bool.false_eq_true, if_false] at hsucc
      cases hj : r.json with
      | rejects msg =>
        rw [hj] at hsucc
        exact absurd hsucc herr
      | value v =>
        cases v with
        | arr items => exact ⟨items, rfl⟩
        | undefined => rw [hj] at hsucc; exact absurd hsucc herr
        | null => rw [hj] at hsucc; exact absurd hsucc herr
        | bool b => rw [hj] at hsucc; exact absurd hsucc herr
        | num n => rw [hj] at hsucc; exact absurd hsucc herr
        | str s => rw [hj] at hsucc; exact absurd hsucc herr
        | obj fields => rw [hj] at hsucc; exact absurd hsucc herr

/-- When `response.json()` rejects on a 2xx answer, the listing ends in an
error that shows the message of the rejection. -/
theorem refreshImageList_unparsed_body (env : Env) (w : World) (r : Response) (msg : String)
    (hvalid : (validateCredentials w.mgr).2 = true)
    (hans : env.fetch w.sent (listingRequest (validateCredentials w.mgr).1) = .response r)
    (hok : r.ok = true) (hjson : r.json = .rejects msg) :
    (refreshImageList env w).mgr.statusMessage =
      { textContent := "❌ " ++ msg, className := "status-message error" } := by
  rw [validateCredentials_of_true w.mgr hvalid] at hans
  rw [refreshImageList_of_valid env w hvalid, hans]
  simp only [refreshImageListTry, hok, hjson, Bool.not_true, Bool.false_eq_true, if_false]
  rfl

/-- Witness of C5: a directory with one sub-directory and one file shows the
file alone; a directory with only a sub-directory shows the placeholder. -/
theorem refreshImageList_shows_files_witness :
    (refreshImageList (scripted [okJson (.arr [subEntry, catEntry])] true)
        { mgr := filledForm, sent := [] }).mgr.imageList = .rows [catEntry] ∧
    (refreshImageList (scripted [okJson (.arr [subEntry])] true)
        { mgr := filledForm, sent := [] }).mgr.imageList =
      .html "<p class=\"placeholder\">No images found in this folder</p>" :=
  ⟨((refreshImageList_shows_files (scripted [okJson (.arr [subEntry, catEntry])] true)
        { mgr := filledForm, sent := [] }
        { status := 200, json := .value (.arr [subEntry, catEntry]) } [subEntry, catEntry]
        (by decide) rfl rfl rfl
        (by intro x hx; simp [subEntry, catEntry] at hx; rcases hx with rfl | rfl <;> simp)
      ).2.2.1 (by simp [List.filter, isFileEntry, subEntry, catEntry, JSVal.getProp,
        List.lookup, JSVal.strictEqStr])).1,
   ((refreshImageList_shows_files (scripted [okJson (.arr [subEntry])] true)
        { mgr := filledForm, sent := [] }
        { status := 200, json := .value (.arr [subEntry]) } [subEntry]
        (by decide) rfl rfl rfl
        (by intro x hx; simp [subEntry] at hx; rcases hx with rfl; simp)
      ).2.2.2 rfl).1⟩

/-- Witness of C6: answers 404, 403, a single file object and an empty array
give the not-found error, the API error 403, the format error and a success. -/
theorem refreshImageList_failures_witness :
    (refreshImageList (scripted [failed 404] true)
        { mgr := filledForm, sent := [] }).mgr.statusMessage.textContent =
      "❌ Repository or folder not found. Check your credentials and folder path." ∧
    (refreshImageList (scripted [failed 403] true)
        { mgr := filledForm, sent := [] }).mgr.statusMessage.textContent =
      "❌ GitHub API error: 403" ∧
    (refreshImageList (scripted [okJson catEntry] true)
        { mgr := filledForm, sent := [] }).mgr.statusMessage.textContent =
      "❌ Invalid response format from GitHub API" ∧
    (∃ items, JsonResult.value (.arr []) = .value (.arr items)) :=
  ⟨congrArg Status.textContent
      ((refreshImageList_failures (scripted [failed 404] true)
        { mgr := filledForm, sent := [] }
        { status := 404, json := .value (.obj [("message", .str "Not Found")]) }
        (by decide) rfl).1 rfl).2,
   congrArg Status.textContent
      ((refreshImageList_failures (scripted [failed 403] true)
        { mgr := filledForm, sent := [] }
        { status := 403, json := .value (.obj [("message", .str "Not Found")]) }
        (by decide) rfl).2.1 rfl (by decide)).2,
   congrArg Status.textContent
      ((refreshImageList_failures (scripted [okJson catEntry] true)
        { mgr := filledForm, sent := [] }
        { status := 200, json := .value catEntry }
        (by decide) rfl).2.2.1 rfl catEntry rfl (by intro items h; cases h)).2,
   ((refreshImageList_failures (scripted [okJson (.arr [])] true)
        { mgr := filledForm, sent := [] }
        { status := 200, json := .value (.arr []) }
        (by decide) rfl).2.2.2 (by decide)).2⟩

/-! ## Upload -/

theorem addImageAfterPut_sent (env : Env) (m : CloudImageManager) (sent : List Request)
    (fileName : String) (sha : JSVal) (answer : FetchOutcome) :
    (addImageAfterPut env m sent fileName sha answer).sent = sent := by
  unfold addImageAfterPut
  repeat' split
  all_goals rfl

theorem addImageAfterPut_ok (env : Env) (m : CloudImageManager) (sent : List Request)
    (fileName : String) (sha : JSVal) (r : Response) (hok : r.ok = true) :
    (addImageAfterPut env m sent fileName sha (.response r)).mgr.selectedFile = none ∧
    (addImageAfterPut env m sent fileName sha (.response r)).mgr.fileNameInput = "" := by
  simp [addImageAfterPut, hok]

theorem addImageAfterPut_failed (env : Env) (m : CloudImageManager) (sent : List Request)
    (fileName : String) (sha : JSVal) (answer : FetchOutcome)
    (h : ∀ r, answer = .response r → r.ok = false) :
    (addImageAfterPut env m sent fileName sha answer).mgr.selectedFile = m.selectedFile ∧
    (addImageAfterPut env m sent fileName sha answer).mgr.fileNameInput = m.fileNameInput := by
  cases answer with
  | networkError msg => exact ⟨rfl, rfl⟩
  | response r =>
    have hr := h r rfl
    simp only [addImageAfterPut, hr, Bool.not_false, if_true]
    repeat' split
    all_goals exact ⟨rfl, rfl⟩

theorem addImage_of_invalid (env : Env) (w : World)
    (h : (validateCredentials w.mgr).2 = false) :
    addImage env w =
      { w with
        mgr := showStatus (cacheCredentials w.mgr)
          "❌ Please fill in GitHub token, username, and repository name" "error" } := by
  unfold addImage
  rw [validateCredentials_of_false w.mgr h]

theorem addImage_of_no_file (env : Env) (w : World)
    (h : (validateCredentials w.mgr).2 = true) (hf : w.mgr.selectedFile = none) :
    addImage env w =
      { w with
        mgr := showStatus (cacheCredentials w.mgr)
          "❌ Please select an image file and enter a filename" "error" } := by
  unfold addImage
  rw [validateCredentials_of_true w.mgr h]
  have hc : (cacheCredentials w.mgr).selectedFile = none := hf
  simp only [hc]

theorem addImage_of_no_name (env : Env) (w : World) (f : SelectedFile)
    (h : (validateCredentials w.mgr).2 = true) (hf : w.mgr.selectedFile = some f)
    (hn : trim w.mgr.fileNameInput = "") :
    addImage env w =
      { w with
        mgr := showStatus (cacheCredentials w.mgr)
          "❌ Please select an image file and enter a filename" "error" } := by
  unfold addImage
  rw [validateCredentials_of_true w.mgr h]
  have hc : (cacheCredentials w.mgr).selectedFile = some f := hf
  have hn2 : trim (cacheCredentials w.mgr).fileNameInput = "" := hn
  simp only [hc, hn2, if_true]

theorem addImage_of_ready (env : Env) (w : World) (f : SelectedFile)
    (h : (validateCredentials w.mgr).2 = true) (hf : w.mgr.selectedFile = some f)
    (hn : trim w.mgr.fileNameInput ≠ "") :
    addImage env w =
      addImageTry env (showStatus (cacheCredentials w.mgr) "⏳ Uploading image..." "info")
        w.sent (trim w.mgr.fileNameInput) f := by
  unfold addImage
  rw [validateCredentials_of_true w.mgr h]
  have hc : (cacheCredentials w.mgr).selectedFile = some f := hf
  have hn2 : ¬ trim (cacheCredentials w.mgr).fileNameInput = "" := hn
  simp only [hc, hn2, if_false]
  rfl

theorem probeRequest_showStatus (m : CloudImageManager) (text type fileName : String) :
    probeRequest (showStatus m text type) fileName = probeRequest m fileName := rfl

theorem addImage_blocked (env : Env) (w : World)
    (h : (validateCredentials w.mgr).2 = false ∨ trim w.mgr.fileNameInput = "" ∨
      w.mgr.selectedFile = none) :
    (addImage env w).sent = w.sent ∧
    (addImage env w).mgr.selectedFile = w.mgr.selectedFile ∧
    (addImage env w).mgr.fileNameInput = w.mgr.fileNameInput ∧
    (addImage env w).mgr.statusMessage.className = "status-message error" ∧
    ((addImage env w).mgr.statusMessage.textContent =
        "❌ Please fill in GitHub token, username, and repository name" ∨
      (addImage env w).mgr.statusMessage.textContent =
        "❌ Please select an image file and enter a filename") := by
  have hcls : ("status-message " ++ "error" : String) = "status-message error" := by decide
  cases hv : (validateCredentials w.mgr).2 with
  | false =>
    rw [addImage_of_invalid env w hv]
    exact ⟨rfl, rfl, rfl, hcls, Or.inl rfl⟩
  | true =>
    cases hf : w.mgr.selectedFile with
    | none =>
      rw [addImage_of_no_file env w hv hf]
      exact ⟨rfl, hf, rfl, hcls, Or.inr rfl⟩
    | some f =>
      have hn : trim w.mgr.fileNameInput = "" := by
        rcases h with h | h | h
        · rw [hv] at h; cases h
        · exact h
        · rw [hf] at h; cases h
      rw [addImage_of_no_name env w f hv hf hn]
      exact ⟨rfl, hf, rfl, hcls, Or.inr rfl⟩

theorem addImage_ready_sent (env : Env) (w : World) (f : SelectedFile)
    (hvalid : (validateCredentials w.mgr).2 = true)
    (hname : trim w.mgr.fileNameInput ≠ "")
    (hfile : w.mgr.selectedFile = some f) :
    (addImage env w).sent =
      w.sent ++ [probeRequest (cacheCredentials w.mgr) (trim w.mgr.fileNameInput),
        putRequest (cacheCredentials w.mgr)
          (contentsUrl (cacheCredentials w.mgr)
            (uploadPath (cacheCredentials w.mgr) (trim w.mgr.fileNameInput)))
          (putBody
            (probeSha (env.fetch w.sent
              (probeRequest (cacheCredentials w.mgr) (trim w.mgr.fileNameInput))))
            (trim w.mgr.fileNameInput) f.base64)] := by
  rw [addImage_of_ready env w f hvalid hfile hname]
  unfold addImageTry
  rw [addImageAfterPut_sent]
  rfl

/-- C7: `addImage` shows a validation error and issues no request when the
credentials do not validate, or the trimmed file name is empty, or no file is
selected; when all three are in place it issues the probe GET for the target
path, followed by the PUT to the same address. -/
theorem addImage_requires_inputs (env : Env) (w : World) :
    (((validateCredentials w.mgr).2 = false ∨ trim w.mgr.fileNameInput = "" ∨
        w.mgr.selectedFile = none) →
      (addImage env w).sent = w.sent ∧
      (addImage env w).mgr.statusMessage.className = "status-message error" ∧
      ((addImage env w).mgr.statusMessage.textContent =
          "❌ Please fill in GitHub token, username, and repository name" ∨
        (addImage env w).mgr.statusMessage.textContent =
          "❌ Please select an image file and enter a filename")) ∧
    (((validateCredentials w.mgr).2 = true ∧ trim w.mgr.fileNameInput ≠ "" ∧
        w.mgr.selectedFile ≠ none) →
      ∃ put,
        (addImage env w).sent =
          w.sent ++ [probeRequest (validateCredentials w.mgr).1 (trim w.mgr.fileNameInput),
            put] ∧
        put.method = "PUT" ∧
        put.url = (probeRequest (validateCredentials w.mgr).1 (trim w.mgr.fileNameInput)).url) := by
  refine ⟨?_, ?_⟩
  · intro h
    obtain ⟨h1, _, _, h4, h5⟩ := addImage_blocked env w h
    exact ⟨h1, h4, h5⟩
  · rintro ⟨hvalid, hname, hfile⟩
    cases hf : w.mgr.selectedFile with
    | none => exact absurd hf hfile
    | some f =>
      rw [validateCredentials_of_true w.mgr hvalid]
      exact ⟨_, addImage_ready_sent env w f hvalid hname hf, rfl, rfl⟩

/-- Witness of C7: with an empty form nothing is sent; with the form filled,
a file chosen and named, the probe GET and the PUT are sent. -/
theorem addImage_requires_inputs_witness :
    (addImage (scripted [] true)
        { mgr := { filledForm with tokenInput := "  " }, sent := [] }).sent = [] ∧
    ∃ put,
      (addImage (scripted [failed 404, okJson (.obj [])] true)
          { mgr := uploadForm, sent := [] }).sent =
        [probeRequest (validateCredentials uploadForm).1 (trim uploadForm.fileNameInput), put] ∧
      put.method = "PUT" ∧
      put.url =
        (probeRequest (validateCredentials uploadForm).1 (trim uploadForm.fileNameInput)).url :=
  ⟨((addImage_requires_inputs (scripted [] true)
        { mgr := { filledForm with tokenInput := "  " }, sent := [] }).1
      (Or.inl (by decide))).1,
   (addImage_requires_inputs (scripted [failed 404, okJson (.obj [])] true)
        { mgr := uploadForm, sent := [] }).2
      ⟨by decide, by decide, by intro h; cases h⟩⟩

theorem putBody_truthy (sha : JSVal) (fileName : String) (content : JSVal)
    (h : sha.truthy = true) :
    putBody sha fileName content =
      [("message", .str ("Update " ++ fileName)), ("content", content), ("sha", sha)] := by
  have hs : ("Update" ++ " " : String) = "Update " := by decide
  simp [putBody, h, hs]

theorem putBody_falsy (sha : JSVal) (fileName : String) (content : JSVal)
    (h : sha.truthy = false) :
    putBody sha fileName content =
      [("message", .str ("Add " ++ fileName)), ("content", content)] := by
  have hs : ("Add" ++ " " : String) = "Add " := by decide
  simp [putBody, h, hs]

theorem truthy_str (s : String) (h : s ≠ "") : (JSVal.str s).truthy = true := by
  simp [JSVal.truthy, h]

/-- C4 (amended): once `addImage` has passed its checks, it sends the probe
GET and then a PUT.  If the probe is answered 2xx with a non-empty string sha,
the PUT body is message Update and the file name, the content of the pending
file, and that sha.  If the probe is answered with a status outside 200 to 299,
or throws (the fetch fails at network level, or after a 2xx answer the call of
json() rejects, or the parsed body is null or undefined so that reading its
sha raises a TypeError), the body is message Add and the file name and the
content of the pending file, with no sha field.  For any value read as sha
from a 2xx answer, its truthiness alone decides between the two bodies. -/
theorem addImage_put_body (env : Env) (w : World) (f : SelectedFile)
    (hvalid : (validateCredentials w.mgr).2 = true)
    (hname : trim w.mgr.fileNameInput ≠ "")
    (hfile : w.mgr.selectedFile = some f) :
    ∃ put,
      (addImage env w).sent =
        w.sent ++ [probeRequest (validateCredentials w.mgr).1 (trim w.mgr.fileNameInput),
          put] ∧
      put.method = "PUT" ∧
      (∀ r v s,
        env.fetch w.sent
            (probeRequest (validateCredentials w.mgr).1 (trim w.mgr.fileNameInput)) =
          .response r →
        r.ok = true → r.json = .value v → v.getProp "sha" = some (.str s) → s ≠ "" →
        put.body =
          some [("message", .str ("Update " ++ trim w.mgr.fileNameInput)),
                ("content", f.base64), ("sha", .str s)]) ∧
      (∀ r,
        env.fetch w.sent
            (probeRequest (validateCredentials w.mgr).1 (trim w.mgr.fileNameInput)) =
          .response r →
        r.ok = false →
        put.body =
          some [("message", .str ("Add " ++ trim w.mgr.fileNameInput)),
                ("content", f.base64)]) ∧
      (∀ msg,
        env.fetch w.sent
            (probeRequest (validateCredentials w.mgr).1 (trim w.mgr.fileNameInput)) =
          .networkError msg →
        put.body =
          some [("message", .str ("Add " ++ trim w.mgr.fileNameInput)),
                ("content", f.base64)]) ∧
      (∀ r msg,
        env.fetch w.sent
            (probeRequest (validateCredentials w.mgr).1 (trim w.mgr.fileNameInput)) =
          .response r →
        r.ok = true → r.json = .rejects msg →
        put.body =
          some [("message", .str ("Add " ++ trim w.mgr.fileNameInput)),
                ("content", f.base64)]) ∧
      (∀ r v,
        env.fetch w.sent
            (probeRequest (validateCredentials w.mgr).1 (trim w.mgr.fileNameInput)) =
          .response r →
        r.ok = true → r.json = .value v → v.getProp "sha" = none →
        put.body =
          some [("message", .str ("Add " ++ trim w.mgr.fileNameInput)),
                ("content", f.base64)]) ∧
      (∀ r v sha,
        env.fetch w.sent
            (probeRequest (validateCredentials w.mgr).1 (trim w.mgr.fileNameInput)) =
          .response r →
        r.ok = true → r.json = .value v → v.getProp "sha" = some sha →
        put.body =
          if sha.truthy then
            some [("message", .str ("Update " ++ trim w.mgr.fileNameInput)),
                  ("content", f.base64), ("sha", sha)]
          else
            some [("message", .str ("Add " ++ trim w.mgr.fileNameInput)),
                  ("content", f.base64)]) := by
  rw [validateCredentials_of_true w.mgr hvalid]
  refine ⟨_, addImage_ready_sent env w f hvalid hname hfile, rfl, ?_, ?_, ?_, ?_, ?_, ?_⟩
  · intro r v s hans hok hjson hsha hne
    have hp : probeSha (env.fetch w.sent
        (probeRequest (cacheCredentials w.mgr) (trim w.mgr.fileNameInput))) = .str s := by
      rw [hans]
      simp [probeSha, hok, hjson, hsha]
    show some (putBody _ _ _) = _
    rw [hp, putBody_truthy _ _ _ (truthy_str s hne)]
  · intro r hans hok
    have hp : probeSha (env.fetch w.sent
        (probeRequest (cacheCredentials w.mgr) (trim w.mgr.fileNameInput))) = .null := by
      rw [hans]
      simp [probeSha, hok]
    show some (putBody _ _ _) = _
    rw [hp, putBody_falsy JSVal.null _ _ rfl]
  · intro msg hans
    have hp : probeSha (env.fetch w.sent
        (probeRequest (cacheCredentials w.mgr) (trim w.mgr.fileNameInput))) = .null := by
      rw [hans]
      rfl
    show some (putBody _ _ _) = _
    rw [hp, putBody_falsy JSVal.null _ _ rfl]
  · intro r msg hans hok hjson
    have hp : probeSha (env.fetch w.sent
        (probeRequest (cacheCredentials w.mgr) (trim w.mgr.fileNameInput))) = .null := by
      rw [hans]
      simp [probeSha, hok, hjson]
    show some (putBody _ _ _) = _
    rw [hp, putBody_falsy JSVal.null _ _ rfl]
  · intro r v hans hok hjson hsha
    have hp : probeSha (env.fetch w.sent
        (probeRequest (cacheCredentials w.mgr) (trim w.mgr.fileNameInput))) = .null := by
      rw [hans]
      simp [probeSha, hok, hjson, hsha]
    show some (putBody _ _ _) = _
    rw [hp, putBody_falsy JSVal.null _ _ rfl]
  · intro r v sha hans hok hjson hsha
    have hp : probeSha (env.fetch w.sent
        (probeRequest (cacheCredentials w.mgr) (trim w.mgr.fileNameInput))) = sha := by
      rw [hans]
      simp [probeSha, hok, hjson, hsha]
    show some (putBody _ _ _) = _
    rw [hp]
    cases ht : sha.truthy with
    | true => rw [putBody_truthy _ _ _ ht]; rfl
    | false => rw [putBody_falsy _ _ _ ht]; rfl

/-- Witness of C4 (amended): a probe answered with sha abc123 leads to an
Update body carrying abc123; a probe answered 404, a probe whose json() rejects
after a 2xx answer, and a probe whose parsed body is null each lead to an Add
body without sha. -/
theorem addImage_put_body_witness :
    (∃ put,
      (addImage (scripted [okJson catEntry, okJson (.obj [])] true)
          { mgr := uploadForm, sent := [] }).sent =
        [probeRequest (validateCredentials uploadForm).1 (trim uploadForm.fileNameInput), put] ∧
      put.body =
        some [("message", .str ("Update " ++ trim uploadForm.fileNameInput)),
              ("content", .str "AAAA"), ("sha", .str "abc123")]) ∧
    (∃ put,
      (addImage (scripted [failed 404, okJson (.obj [])] true)
          { mgr := uploadForm, sent := [] }).sent =
        [probeRequest (validateCredentials uploadForm).1 (trim uploadForm.fileNameInput), put] ∧
      put.body =
        some [("message", .str ("Add " ++ trim uploadForm.fileNameInput)),
              ("content", .str "AAAA")]) ∧
    (∃ put,
      (addImage (scripted [unparsed 200, okJson (.obj [])] true)
          { mgr := uploadForm, sent := [] }).sent =
        [probeRequest (validateCredentials uploadForm).1 (trim uploadForm.fileNameInput), put] ∧
      put.body =
        some [("message", .str ("Add " ++ trim uploadForm.fileNameInput)),
              ("content", .str "AAAA")]) ∧
    (∃ put,
      (addImage (scripted [okJson .null, okJson (.obj [])] true)
          { mgr := uploadForm, sent := [] }).sent =
        [probeRequest (validateCredentials uploadForm).1 (trim uploadForm.fileNameInput), put] ∧
      put.body =
        some [("message", .str ("Add " ++ trim uploadForm.fileNameInput)),
              ("content", .str "AAAA")]) := by
  refine ⟨?_, ?_, ?_, ?_⟩
  · obtain ⟨put, hsent, _, hupdate, _, _, _, _, _⟩ :=
      addImage_put_body (scripted [okJson catEntry, okJson (.obj [])] true)
        { mgr := uploadForm, sent := [] }
        { name := "cat.png", content := none, base64 := .str "AAAA" }
        (by decide) (by decide) rfl
    exact ⟨put, hsent,
      hupdate { status := 200, json := .value catEntry } catEntry "abc123" rfl rfl rfl rfl
        (by decide)⟩
  · obtain ⟨put, hsent, _, _, hstatus, _, _, _, _⟩ :=
      addImage_put_body (scripted [failed 404, okJson (.obj [])] true)
        { mgr := uploadForm, sent := [] }
        { name := "cat.png", content := none, base64 := .str "AAAA" }
        (by decide) (by decide) rfl
    exact ⟨put, hsent,
      hstatus { status := 404, json := .value (.obj [("message", .str "Not Found")]) } rfl rfl⟩
  · obtain ⟨put, hsent, _, _, _, _, hrejects, _, _⟩ :=
      addImage_put_body (scripted [unparsed 200, okJson (.obj [])] true)
        { mgr := uploadForm, sent := [] }
        { name := "cat.png", content := none, base64 := .str "AAAA" }
        (by decide) (by decide) rfl
    exact ⟨put, hsent,
      hrejects { status := 200, json := .rejects "Unexpected end of JSON input" }
        "Unexpected end of JSON input" rfl rfl rfl⟩
  · obtain ⟨put, hsent, _, _, _, _, _, hnull, _⟩ :=
      addImage_put_body (scripted [okJson .null, okJson (.obj [])] true)
        { mgr := uploadForm, sent := [] }
        { name := "cat.png", content := none, base64 := .str "AAAA" }
        (by decide) (by decide) rfl
    exact ⟨put, hsent, hnull { status := 200, json := .value .null } .null rfl rfl rfl rfl⟩

/-- C4 as stated fails: the probe GET is answered 2xx with the empty string
as sha, and the PUT body is message Add with no sha field instead of message
Update with that sha. -/
theorem addImage_empty_sha_counterexample :
    (scripted [okJson (.obj [("sha", .str "")]), okJson (.obj [])] true).fetch []
        (probeRequest (validateCredentials uploadForm).1 (trim uploadForm.fileNameInput)) =
      .response { status := 200, json := .value (.obj [("sha", .str "")]) } ∧
    (JSVal.obj [("sha", .str "")]).getProp "sha" = some (.str "") ∧
    (addImage (scripted [okJson (.obj [("sha", .str "")]), okJson (.obj [])] true)
        { mgr := uploadForm, sent := [] }).sent =
      [{ url := "https://api.github.com/repos/octocat/notes/contents/img/cat.png"
         method := "GET"
         headers := [("Authorization", "Bearer ghp_token"),
                     ("Accept", "application/vnd.github.v3+json")]
         body := none },
       { url := "https://api.github.com/repos/octocat/notes/contents/img/cat.png"
         method := "PUT"
         headers := [("Authorization", "Bearer ghp_token"),
                     ("Content-Type", "application/json")]
         body := some [("message", .str "Add cat.png"), ("content", .str "AAAA")] }] := by
  refine ⟨rfl, rfl, ?_⟩
  rfl

/-! ## Pending file after an upload -/

/-- C10: if the PUT of `addImage` is answered with a 2xx status, the pending
file is cleared and the file name field is empty; if the PUT is answered with
another status or fails, or if `addImage` stops at its validation, the pending
file and the file name field are what they were before the call. -/
theorem addImage_pending_file (env : Env) (w : World) :
    (∀ probe put r,
      (addImage env w).sent = w.sent ++ [probe, put] →
      env.fetch (w.sent ++ [probe]) put = .response r → r.ok = true →
      (addImage env w).mgr.selectedFile = none ∧ (addImage env w).mgr.fileNameInput = "") ∧
    (∀ probe put,
      (addImage env w).sent = w.sent ++ [probe, put] →
      (∀ r, env.fetch (w.sent ++ [probe]) put = .response r → r.ok = false) →
      (addImage env w).mgr.selectedFile = w.mgr.selectedFile ∧
      (addImage env w).mgr.fileNameInput = w.mgr.fileNameInput) ∧
    (((validateCredentials w.mgr).2 = false ∨ trim w.mgr.fileNameInput = "" ∨
        w.mgr.selectedFile = none) →
      (addImage env w).mgr.selectedFile = w.mgr.selectedFile ∧
      (addImage env w).mgr.fileNameInput = w.mgr.fileNameInput) := by
  have key : ∀ probe put, (addImage env w).sent = w.sent ++ [probe, put] →
      ∃ f, (validateCredentials w.mgr).2 = true ∧ trim w.mgr.fileNameInput ≠ "" ∧
        w.mgr.selectedFile = some f := by
    intro probe put hsent
    by_contra hno
    have hblocked : (validateCredentials w.mgr).2 = false ∨ trim w.mgr.fileNameInput = "" ∨
        w.mgr.selectedFile = none := by
      by_contra hb
      push_neg at hb
      obtain ⟨h1, h2, h3⟩ := hb
      cases hf : w.mgr.selectedFile with
      | none => exact h3 hf
      | some f => exact hno ⟨f, by simpa using h1, h2, hf⟩
    have h0 := (addImage_blocked env w hblocked).1
    rw [h0] at hsent
    have hlen := congrArg List.length hsent
    simp at hlen
  refine ⟨?_, ?_, ?_⟩
  · intro probe put r hsent hans hok
    obtain ⟨f, hvalid, hname, hfile⟩ := key probe put hsent
    have hs := addImage_ready_sent env w f hvalid hname hfile
    rw [hs] at hsent
    have hpair := List.append_cancel_left hsent
    simp only [List.cons.injEq, and_true] at hpair
    obtain ⟨hprobe, hput⟩ := hpair
    rw [← hprobe, ← hput] at hans
    rw [addImage_of_ready env w f hvalid hfile hname]
    unfold addImageTry
    dsimp only
    rw [probeRequest_showStatus]
    have hans2 : env.fetch (w.sent ++ [probeRequest (cacheCredentials w.mgr)
        (trim w.mgr.fileNameInput)])
        (putRequest (showStatus (cacheCredentials w.mgr) "⏳ Uploading image..." "info")
          (contentsUrl (showStatus (cacheCredentials w.mgr) "⏳ Uploading image..." "info")
            (uploadPath (showStatus (cacheCredentials w.mgr) "⏳ Uploading image..." "info")
              (trim w.mgr.fileNameInput)))
          (putBody
            (probeSha (env.fetch w.sent
              (probeRequest (cacheCredentials w.mgr) (trim w.mgr.fileNameInput))))
            (trim w.mgr.fileNameInput) f.base64)) = .response r := hans
    rw [hans2]
    exact addImageAfterPut_ok env _ _ _ _ r hok
  · intro probe put hsent hfail
    obtain ⟨f, hvalid, hname, hfile⟩ := key probe put hsent
    have hs := addImage_ready_sent env w f hvalid hname hfile
    rw [hs] at hsent
    have hpair := List.append_cancel_left hsent
    simp only [List.cons.injEq, and_true] at hpair
    obtain ⟨hprobe, hput⟩ := hpair
    rw [← hprobe, ← hput] at hfail
    rw [addImage_of_ready env w f hvalid hfile hname]
    unfold addImageTry
    dsimp only
    rw [probeRequest_showStatus]
    have hrest := addImageAfterPut_failed env
      (showStatus (cacheCredentials w.mgr) "⏳ Uploading image..." "info")
      (w.sent ++ [probeRequest (cacheCredentials w.mgr) (trim w.mgr.fileNameInput),
        putRequest (showStatus (cacheCredentials w.mgr) "⏳ Uploading image..." "info")
          (contentsUrl (showStatus (cacheCredentials w.mgr) "⏳ Uploading image..." "info")
            (uploadPath (showStatus (cacheCredentials w.mgr) "⏳ Uploading image..." "info")
              (trim w.mgr.fileNameInput)))
          (putBody
            (probeSha (env.fetch w.sent
              (probeRequest (cacheCredentials w.mgr) (trim w.mgr.fileNameInput))))
            (trim w.mgr.fileNameInput) f.base64)])
      (trim w.mgr.fileNameInput)
      (probeSha (env.fetch w.sent
        (probeRequest (cacheCredentials w.mgr) (trim w.mgr.fileNameInput))))
      _ hfail
    exact hrest
  · intro h
    obtain ⟨_, h2, h3, _⟩ := addImage_blocked env w h
    exact ⟨h2, h3⟩

/-- Witness of C10: after an accepted PUT the pending file is gone and the
name field is empty; after a rejected PUT both are as before. -/
theorem addImage_pending_file_witness :
    ((addImage (scripted [failed 404, okJson (.obj [])] true)
        { mgr := uploadForm, sent := [] }).mgr.selectedFile = none ∧
      (addImage (scripted [failed 404, okJson (.obj [])] true)
        { mgr := uploadForm, sent := [] }).mgr.fileNameInput = "") ∧
    ((addImage (scripted [failed 404, failed 422] true)
        { mgr := uploadForm, sent := [] }).mgr.selectedFile = uploadForm.selectedFile ∧
      (addImage (scripted [failed 404, failed 422] true)
        { mgr := uploadForm, sent := [] }).mgr.fileNameInput = " cat.png ") :=
  ⟨(addImage_pending_file (scripted [failed 404, okJson (.obj [])] true)
        { mgr := uploadForm, sent := [] }).1 _ _
      { status := 200, json := .value (.obj []) } rfl rfl rfl,
   (addImage_pending_file (scripted [failed 404, failed 422] true)
        { mgr := uploadForm, sent := [] }).2.1 _ _ rfl
      (by
        intro r h
        have h2 : FetchOutcome.response
            { status := 422, json := .value (.obj [("message", .str "Not Found")]) } =
            .response r := h
        cases h2
        rfl)⟩

/-! ## Deletion -/

theorem refreshImageList_sent (env : Env) (w : World) :
    ∃ extra, (refreshImageList env w).sent = w.sent ++ extra ∧
      ∀ d ∈ extra, d.method = "GET" := by
  cases hv : (validateCredentials w.mgr).2 with
  | false =>
    refine ⟨[], ?_, by simp⟩
    rw [refreshImageList_of_invalid env w hv]
    simp
  | true =>
    refine ⟨[listingRequest (cacheCredentials w.mgr)], ?_, ?_⟩
    · rw [refreshImageList_of_valid env w hv]
      split <;> rfl
    · intro d hd
      simp only [List.mem_singleton] at hd
      rw [hd]
      rfl

theorem deleteImageAfterDelete_sent (env : Env) (m : CloudImageManager)
    (sent : List Request) (fileName : String) (answer : FetchOutcome) :
    ∃ extra, (deleteImageAfterDelete env m sent fileName answer).sent = sent ++ extra ∧
      ∀ d ∈ extra, d.method = "GET" := by
  unfold deleteImageAfterDelete
  split
  · exact ⟨[], by simp [deleteImageCatch], by simp⟩
  · split
    · exact ⟨[], by simp [deleteImageCatch], by simp⟩
    · exact refreshImageList_sent env _

theorem deleteImageAfterGet_sent (env : Env) (m : CloudImageManager)
    (sent : List Request) (url fileName : String) (answer : FetchOutcome) :
    ∃ rest, (deleteImageAfterGet env m sent url fileName answer).sent = sent ++ rest ∧
      ((∀ r, answer = .response r → r.ok = false) →
        rest = [] ∧
        (deleteImageAfterGet env m sent url fileName answer).mgr.statusMessage.className =
          "status-message error") ∧
      (∀ d ∈ rest, d.method = "DELETE" →
        ∃ r fileData sha, answer = .response r ∧ r.ok = true ∧ r.json = .value fileData ∧
          fileData.getProp "sha" = some sha ∧ d = deleteRequest m url fileName sha) ∧
      (∀ r fileData sha, answer = .response r → r.ok = true → r.json = .value fileData →
        fileData.getProp "sha" = some sha →
        ∃ extra, rest = deleteRequest m url fileName sha :: extra) := by
  have hcls : ("status-message " ++ "error" : String) = "status-message error" := by decide
  cases answer with
  | networkError msg =>
    exact ⟨[], by simp [deleteImageAfterGet, deleteImageCatch],
      fun _ => ⟨rfl, hcls⟩, by simp, fun r _ _ h => by cases h⟩
  | response r =>
    cases hok : r.ok with
    | false =>
      refine ⟨[], ?_, fun _ => ⟨rfl, ?_⟩, by simp, ?_⟩
      · simp [deleteImageAfterGet, hok, deleteImageCatch]
      · simp only [deleteImageAfterGet, hok, Bool.not_false, if_true]
        exact hcls
      · intro r2 _ _ h hok2
        cases h
        rw [hok] at hok2
        cases hok2
    | true =>
      cases hj : r.json with
      | rejects msg =>
        refine ⟨[], ?_, fun h => ?_, by simp, ?_⟩
        · simp [deleteImageAfterGet, hok, hj, deleteImageCatch]
        · have := h r rfl
          rw [hok] at this
          cases this
        · intro r2 _ _ h _ hj2
          cases h
          rw [hj] at hj2
          cases hj2
      | value fileData =>
        cases hs : fileData.getProp "sha" with
        | none =>
          refine ⟨[], ?_, fun h => ?_, by simp, ?_⟩
          · simp [deleteImageAfterGet, hok, hj, hs, deleteImageCatch]
          · have := h r rfl
            rw [hok] at this
            cases this
          · intro r2 fd2 sha2 h _ hj2 hs2
            cases h
            rw [hj] at hj2
            cases hj2
            rw [hs] at hs2
            cases hs2
        | some sha =>
          obtain ⟨extra, hsent, hget⟩ := deleteImageAfterDelete_sent env m
            (sent ++ [deleteRequest m url fileName sha]) fileName
            (env.fetch sent (deleteRequest m url fileName sha))
          refine ⟨deleteRequest m url fileName sha :: extra, ?_, fun h => ?_, ?_, ?_⟩
          · simp only [deleteImageAfterGet, hok, hj, hs, Bool.not_true, Bool.false_eq_true,
              if_false]
            rw [hsent]
            simp
          · have := h r rfl
            rw [hok] at this
            cases this
          · intro d hd hmethod
            rcases List.mem_cons.mp hd with hd | hd
            · exact ⟨r, fileData, sha, rfl, hok, hj, hs, hd⟩
            · have hg := hget d hd
              rw [hg] at hmethod
              exact absurd hmethod (by decide)
          · intro r2 fd2 sha2 h _ hj2 hs2
            cases h
            rw [hj] at hj2
            cases hj2
            rw [hs] at hs2
            cases hs2
            exact ⟨extra, rfl⟩

theorem deleteImage_of_invalid (env : Env) (w : World) (fileName filePath : String)
    (h : (validateCredentials w.mgr).2 = false) :
    deleteImage env w fileName filePath =
      { w with
        mgr := showStatus (cacheCredentials w.mgr)
          "❌ Please fill in GitHub token, username, and repository name" "error" } := by
  unfold deleteImage
  rw [validateCredentials_of_false w.mgr h]

theorem deleteImage_of_declined (env : Env) (w : World) (fileName filePath : String)
    (h : (validateCredentials w.mgr).2 = true)
    (hc : env.confirm (deleteQuestion fileName) = false) :
    deleteImage env w fileName filePath = { w with mgr := cacheCredentials w.mgr } := by
  unfold deleteImage
  rw [validateCredentials_of_true w.mgr h]
  simp [hc]

theorem deleteImage_of_confirmed (env : Env) (w : World) (fileName filePath : String)
    (h : (validateCredentials w.mgr).2 = true)
    (hc : env.confirm (deleteQuestion fileName) = true) :
    deleteImage env w fileName filePath =
      deleteImageAfterGet env (showStatus (cacheCredentials w.mgr) "⏳ Deleting image..." "info")
        (w.sent ++ [getRequest (cacheCredentials w.mgr)
          (contentsUrl (cacheCredentials w.mgr) filePath)])
        (contentsUrl (cacheCredentials w.mgr) filePath) fileName
        (env.fetch w.sent (getRequest (cacheCredentials w.mgr)
          (contentsUrl (cacheCredentials w.mgr) filePath))) := by
  unfold deleteImage
  rw [validateCredentials_of_true w.mgr h]
  simp only [hc, Bool.not_true, Bool.false_eq_true, if_false]
  rfl

/-- C9: the requests that `deleteImage` adds to those already issued.  None
is added when validation fails or the user declines.  When validation passes
and the user confirms, the first is the GET of the file; if that GET fails at
network level or is answered outside 200 to 299, nothing follows it and the
status is an error; if it is answered 2xx with file data, the DELETE follows.
Every DELETE among them was issued after validation passed, the user confirmed
and the GET was answered 2xx; it goes to the address of the GET and its body is
the message Delete and the file name together with the sha read from the
answer of the GET. -/
theorem deleteImage_protocol (env : Env) (w : World) (fileName filePath : String) :
    ∃ new, (deleteImage env w fileName filePath).sent = w.sent ++ new ∧
      (((validateCredentials w.mgr).2 = false ∨ env.confirm (deleteQuestion fileName) = false) →
        new = []) ∧
      ((validateCredentials w.mgr).2 = true → env.confirm (deleteQuestion fileName) = true →
        ∃ rest,
          new = getRequest (validateCredentials w.mgr).1
              (contentsUrl (validateCredentials w.mgr).1 filePath) :: rest ∧
          ((∀ r, env.fetch w.sent (getRequest (validateCredentials w.mgr).1
                (contentsUrl (validateCredentials w.mgr).1 filePath)) = .response r →
              r.ok = false) →
            rest = [] ∧
            (deleteImage env w fileName filePath).mgr.statusMessage.className =
              "status-message error") ∧
          (∀ r fileData sha,
            env.fetch w.sent (getRequest (validateCredentials w.mgr).1
                (contentsUrl (validateCredentials w.mgr).1 filePath)) = .response r →
            r.ok = true → r.json = .value fileData → fileData.getProp "sha" = some sha →
            ∃ extra,
              rest =
                deleteRequest (validateCredentials w.mgr).1
                  (contentsUrl (validateCredentials w.mgr).1 filePath) fileName sha :: extra)) ∧
      (∀ d ∈ new, d.method = "DELETE" →
        (validateCredentials w.mgr).2 = true ∧ env.confirm (deleteQuestion fileName) = true ∧
        ∃ r fileData sha,
          env.fetch w.sent (getRequest (validateCredentials w.mgr).1
              (contentsUrl (validateCredentials w.mgr).1 filePath)) = .response r ∧
          r.ok = true ∧ r.json = .value fileData ∧ fileData.getProp "sha" = some sha ∧
          d.url = contentsUrl (validateCredentials w.mgr).1 filePath ∧
          d.body = some [("message", .str ("Delete " ++ fileName)), ("sha", sha)]) := by
  cases hv : (validateCredentials w.mgr).2 with
  | false =>
    refine ⟨[], ?_, fun _ => rfl, (fun h => by cases h), by simp⟩
    rw [deleteImage_of_invalid env w fileName filePath hv]
    simp
  | true =>
    cases hc : env.confirm (deleteQuestion fileName) with
    | false =>
      refine ⟨[], ?_, fun _ => rfl, (fun _ h => by cases h), by simp⟩
      rw [deleteImage_of_declined env w fileName filePath hv hc]
      simp
    | true =>
      rw [validateCredentials_of_true w.mgr hv, deleteImage_of_confirmed env w fileName filePath hv hc]
      obtain ⟨rest, hsent, hfail, hdel, hlive⟩ := deleteImageAfterGet_sent env
        (showStatus (cacheCredentials w.mgr) "⏳ Deleting image..." "info")
        (w.sent ++ [getRequest (cacheCredentials w.mgr)
          (contentsUrl (cacheCredentials w.mgr) filePath)])
        (contentsUrl (cacheCredentials w.mgr) filePath) fileName
        (env.fetch w.sent (getRequest (cacheCredentials w.mgr)
          (contentsUrl (cacheCredentials w.mgr) filePath)))
      refine ⟨getRequest (cacheCredentials w.mgr)
          (contentsUrl (cacheCredentials w.mgr) filePath) :: rest, ?_, ?_, ?_, ?_⟩
      · rw [hsent]
        simp
      · intro h
        rcases h with h | h <;> cases h
      · intro _ _
        exact ⟨rest, rfl, hfail, hlive⟩
      · intro d hd hmethod
        rcases List.mem_cons.mp hd with hd | hd
        · rw [hd] at hmethod
          exact absurd (show ("GET" : String) = "DELETE" from hmethod) (by decide)
        · obtain ⟨r, fileData, sha, h1, h2, h3, h4, h5⟩ := hdel d hd hmethod
          refine ⟨rfl, rfl, r, fileData, sha, h1, h2, h3, h4, ?_, ?_⟩
          · rw [h5]; rfl
          · rw [h5]; rfl

/-- Witness of C9: a declined dialogue sends nothing; a GET answered 404 is
the only request; a GET answered with sha abc123 is followed by the DELETE
that carries abc123. -/
theorem deleteImage_protocol_witness :
    (deleteImage (scripted [okJson catEntry] false) { mgr := filledForm, sent := [] }
        "cat.png" "img/cat.png").sent = [] ∧
    (deleteImage (scripted [failed 404] true) { mgr := filledForm, sent := [] }
        "cat.png" "img/cat.png").sent =
      [getRequest (validateCredentials filledForm).1
        (contentsUrl (validateCredentials filledForm).1 "img/cat.png")] ∧
    ∃ extra,
      (deleteImage (scripted [okJson catEntry, okJson (.obj []), okJson (.arr [])] true)
          { mgr := filledForm, sent := [] } "cat.png" "img/cat.png").sent =
        getRequest (validateCredentials filledForm).1
            (contentsUrl (validateCredentials filledForm).1 "img/cat.png") ::
          deleteRequest (validateCredentials filledForm).1
            (contentsUrl (validateCredentials filledForm).1 "img/cat.png") "cat.png"
            (.str "abc123") :: extra := by
  refine ⟨?_, ?_, ?_⟩
  · obtain ⟨new, hsent, hnone, _, _⟩ :=
      deleteImage_protocol (scripted [okJson catEntry] false) { mgr := filledForm, sent := [] }
        "cat.png" "img/cat.png"
    rw [hsent, hnone (Or.inr rfl)]
    rfl
  · obtain ⟨new, hsent, _, hfirst, _⟩ :=
      deleteImage_protocol (scripted [failed 404] true) { mgr := filledForm, sent := [] }
        "cat.png" "img/cat.png"
    obtain ⟨rest, hnew, hfail, _⟩ := hfirst (by decide) rfl
    have hrest := (hfail (by
      intro r h
      have h2 : FetchOutcome.response
          { status := 404, json := .value (.obj [("message", .str "Not Found")]) } =
          .response r := h
      cases h2
      rfl)).1
    rw [hsent, hnew, hrest]
    rfl
  · obtain ⟨new, hsent, _, hfirst, _⟩ :=
      deleteImage_protocol (scripted [okJson catEntry, okJson (.obj []), okJson (.arr [])] true)
        { mgr := filledForm, sent := [] } "cat.png" "img/cat.png"
    obtain ⟨rest, hnew, _, hlive⟩ := hfirst (by decide) rfl
    obtain ⟨extra, hextra⟩ :=
      hlive { status := 200, json := .value catEntry } catEntry (.str "abc123") rfl rfl rfl rfl
    exact ⟨extra, by rw [hsent, hnew, hextra]; rfl⟩

/-! ## Revalidation of the credentials -/

/-- The three operations that call `validateCredentials` issue no request when
it returns false. -/
theorem nothing_sent_when_invalid (env : Env) (w : World) (fileName filePath : String)
    (h : (validateCredentials w.mgr).2 = false) :
    (refreshImageList env w).sent = w.sent ∧
    (deleteImage env w fileName filePath).sent = w.sent ∧
    (addImage env w).sent = w.sent := by
  rw [refreshImageList_of_invalid env w h, deleteImage_of_invalid env w fileName filePath h,
    addImage_of_invalid env w h]
  exact ⟨rfl, rfl, rfl⟩

/-- C8: `editImage` never calls `validateCredentials`: in every state it
issues its authenticated GET with the cached token.  After a listing, once the
token field is emptied and Refresh is clicked, validation fails, the cached
token is empty and the rows stay on screen; Edit on the row then sends a GET
whose Authorization header carries no token. -/
theorem editImage_skips_validation :
    (∀ (env : Env) (w : World) (fileName filePath : String),
      (editImage env w fileName filePath).sent =
        w.sent ++ [getRequest w.mgr (contentsUrl w.mgr filePath)]) ∧
    listedWorld.mgr.imageList = .rows [catEntry] ∧
    tokenCleared.mgr.imageList = .rows [catEntry] ∧
    tokenCleared.sent = listedWorld.sent ∧
    (validateCredentials tokenCleared.mgr).2 = false ∧
    (editImage (scripted [okJson (.arr [catEntry]), okJson catEntry] true) tokenCleared
        "cat.png" "img/cat.png").sent =
      listedWorld.sent ++
        [{ url := "https://api.github.com/repos/octocat/notes/contents/img/cat.png"
           method := "GET"
           headers := [("Authorization", "Bearer "),
                       ("Accept", "application/vnd.github.v3+json")]
           body := none }] := by
  refine ⟨?_, rfl, rfl, rfl, by decide, rfl⟩
  intro env w fileName filePath
  unfold editImage
  dsimp only
  split <;> rfl

end CloudNotepad
